import Mathlib

/-!
Verification of the lyrics-to-audio composition core (`app/music_composer.py`).

The Python source is shallowly embedded: pure music-theory computations
(`get_scale_notes`, `generate_melody_from_lyrics`, the tick conversion of
`create_simple_midi`) become executable Lean functions over `String`, `Nat`,
`Int` and `ℚ`; the effectful backend chains (`create_midi_file`,
`convert_midi_to_mp3` and its three converters) become functions over small
environment records that capture exactly the observations the Python code
branches on (library availability, process return codes, output-file
existence and size), returning `Except`/`Bool` results mirroring the
control flow of the source.
-/

/- ===== ScaleResolver: `get_scale_notes` (music_composer.py lines 125-151) ===== -/

/-- Major scale offsets, from `major_pattern = [0, 2, 4, 5, 7, 9, 11]`. -/
def major_pattern : List Int := [0, 2, 4, 5, 7, 9, 11]

/-- Natural-minor scale offsets, from `minor_pattern = [0, 2, 3, 5, 7, 8, 10]`. -/
def minor_pattern : List Int := [0, 2, 3, 5, 7, 8, 10]

/-- The root lookup table `key_map` of `get_scale_notes`. -/
def key_map : List (String × Int) :=
  [("C", 60), ("C#", 61), ("Db", 61), ("D", 62), ("D#", 63), ("Eb", 63),
   ("E", 64), ("F", 65), ("F#", 66), ("Gb", 66), ("G", 67), ("G#", 68),
   ("Ab", 68), ("A", 69), ("A#", 70), ("Bb", 70), ("B", 71)]

/-- Python `str.rstrip(chars)`: drop trailing characters belonging to `cs`. -/
def rstrip (s : String) (cs : List Char) : String :=
  String.mk (((s.toList.reverse).dropWhile (fun c => cs.contains c)).reverse)

/-- Python `str.endswith(t)` as a Boolean on the underlying character lists. -/
def pyEndsWith (s t : String) : Bool :=
  t.toList.isSuffixOf s.toList

/-- Minor-key test of `get_scale_notes`:
`key.endswith('m') or key.endswith('min')`. -/
def key_is_minor (key : String) : Bool :=
  pyEndsWith key "m" || pyEndsWith key "min"

/-- Base-token computation of `get_scale_notes`:
`key.rstrip('m').rstrip('min')`. -/
def key_base (key : String) : String :=
  rstrip (rstrip key ['m']) ['m', 'i', 'n']

/-- Embedding of `get_scale_notes(key)`: resolve the base token in `key_map`
(default 60), then add the minor or major offset pattern. -/
def get_scale_notes (key : String) : List Int :=
  let base_note := (key_map.lookup (key_base key)).getD 60
  if key_is_minor key then
    minor_pattern.map (fun offset => base_note + offset)
  else
    major_pattern.map (fun offset => base_note + offset)

/-- The key grammar of the spec: each of the 17 root spellings (12 semitone
roots with `#`/`b` aliases), with and without a trailing `m`; each entry
carries the intended root pitch and minor-ness. -/
def grammarKeys : List (String × Int × Bool) :=
  key_map.map (fun p => (p.1, p.2, false)) ++
    key_map.map (fun p => (p.1 ++ "m", p.2, true))

/-- C1 counterexample: the unrecognized key string `"Hm"` ends in `m`, so
`get_scale_notes` resolves it to root 60 with the natural-minor pattern,
not the C-major scale the claim asserts. -/
theorem unrecognized_minor_key_counterexample :
    get_scale_notes "Hm" = [60, 62, 63, 65, 67, 68, 70] ∧
      get_scale_notes "Hm" ≠ major_pattern.map (fun offset => (60 : Int) + offset) := by
  decide

/-- C1 (amended): for every key string whose stripped base token is absent
from `key_map`, the resolver returns root 60; the offset pattern is major
when the string does not end in `m`/`min`, and natural minor when it does. -/
theorem unrecognized_key_resolution (s : String)
    (h : key_map.lookup (key_base s) = none) :
    get_scale_notes s =
      if key_is_minor s then
        minor_pattern.map (fun offset => (60 : Int) + offset)
      else
        major_pattern.map (fun offset => (60 : Int) + offset) := by
  unfold get_scale_notes
  rw [h]
  rfl

/-- C1 witness: the amended theorem applied at the concrete key `"Hm"`. -/
theorem unrecognized_key_resolution_witness :
    key_map.lookup (key_base "Hm") = none ∧
      get_scale_notes "Hm" =
        if key_is_minor "Hm" then
          minor_pattern.map (fun offset => (60 : Int) + offset)
        else
          major_pattern.map (fun offset => (60 : Int) + offset) :=
  ⟨by decide, unrecognized_key_resolution "Hm" (by decide)⟩

/-- C5: every key string of the grammar (17 root spellings × {major, minor})
resolves to exactly 7 strictly increasing pitches equal to the correct root
plus the major pattern (no trailing `m`) or the natural-minor pattern
(trailing `m`). -/
theorem scale_grammar_correct :
    ∀ p ∈ grammarKeys,
      get_scale_notes p.1 =
          (if p.2.2 then minor_pattern else major_pattern).map
            (fun offset => p.2.1 + offset) ∧
        (get_scale_notes p.1).length = 7 ∧
        List.Pairwise (fun a b => a < b) (get_scale_notes p.1) := by
  decide

/-- C5 witness: the grammar theorem applied at the concrete key `"C"`. -/
theorem scale_grammar_correct_witness :
    ("C", (60 : Int), false) ∈ grammarKeys ∧
      (get_scale_notes "C" =
          (if false then minor_pattern else major_pattern).map
            (fun offset => (60 : Int) + offset) ∧
        (get_scale_notes "C").length = 7 ∧
        List.Pairwise (fun a b => a < b) (get_scale_notes "C")) :=
  ⟨by decide, scale_grammar_correct ("C", 60, false) (by decide)⟩

/- ===== MelodySynthesizer: `generate_melody_from_lyrics` (lines 74-122) ===== -/

/-- A melody note, from the dicts `{'pitch', 'duration', 'start_time'}` built
by `generate_melody_from_lyrics`; times are modelled exactly as rationals. -/
structure NoteQ where
  pitch : Int
  duration : ℚ
  start_time : ℚ
deriving DecidableEq

/-- Python whitespace characters recognized by `str.strip()`/`str.split()`
(ASCII range, the only ones the claims depend on). -/
def pyIsSpace (c : Char) : Bool :=
  c = ' ' || c = '\t' || c = '\n' || c = '\r' || c = '\x0b' || c = '\x0c'

/-- Python `str.strip()` on a character list: drop leading and trailing
whitespace. -/
def pyStripList (l : List Char) : List Char :=
  ((l.dropWhile pyIsSpace).reverse.dropWhile pyIsSpace).reverse

/-- Python `str.split('\n')` on a character list: split at every newline,
keeping empty pieces (so `""` yields `[""]`). -/
def splitOnNl : List Char → List (List Char)
  | [] => [[]]
  | c :: cs =>
    let r := splitOnNl cs
    if c = '\n' then [] :: r
    else
      match r with
      | [] => [[c]]
      | h :: t => (c :: h) :: t

/-- Word counter for `len(line.split())`: counts maximal whitespace-free
runs, scanning with an in-word flag. -/
def countWordsAux : List Char → Bool → Nat
  | [], _ => 0
  | c :: cs, inWord =>
    if pyIsSpace c then countWordsAux cs false
    else (if inWord then 0 else 1) + countWordsAux cs true

/-- Word counts of the lines kept by
`lines = [line.strip() for line in lyrics.split('\n') if line.strip()]`:
split on newlines, strip each line, keep the non-empty ones, count words. -/
def lineWordCounts (lyrics : String) : List Nat :=
  (((splitOnNl lyrics.toList).map pyStripList).filter
      (fun l => !l.isEmpty)).map (fun l => countWordsAux l false)

/-- Rhythm pattern of the melody loop: `note_duration * 2` when
`i % 4 == 0`, else `note_duration` when `i % 2 == 0`, else
`note_duration * 0.5`. -/
def noteDuration (q : ℚ) (i : Nat) : ℚ :=
  if i % 4 = 0 then q * 2
  else if i % 2 = 0 then q
  else q * (1 / 2)

/-- Inner loop `for i in range(notes_per_line)` of the synthesizer: given the
scale, quarter length `q`, remaining note count, current loop index `i` and
cursor `t`, emit the notes of one line and return the advanced cursor. -/
def genNotesAux (s : List Int) (q : ℚ) : Nat → Nat → ℚ → List NoteQ × ℚ
  | 0, _, t => ([], t)
  | k + 1, i, t =>
    let d := noteDuration q i
    let p := genNotesAux s q k (i + 1) (t + d)
    (⟨s.getD (i % s.length) 0, d, t⟩ :: p.1, p.2)

/-- Outer loop `for line in lines` of the synthesizer: each line emits
`max 4 wordCount` notes, then the cursor advances by the inter-line rest
`note_duration * 0.5`. -/
def genLines (s : List Int) (q : ℚ) : List Nat → ℚ → List NoteQ
  | [], _ => []
  | w :: ws, t =>
    let p := genNotesAux s q (max 4 w) 0 t
    p.1 ++ genLines s q ws (p.2 + q * (1 / 2))

/-- Embedding of `generate_melody_from_lyrics(lyrics, bpm, key)`:
quarter length `60 / bpm`, scale from `get_scale_notes`, cursor from 0. -/
def generate_melody_from_lyrics (lyrics : String) (bpm : ℕ) (key : String) :
    List NoteQ :=
  genLines (get_scale_notes key) (60 / (bpm : ℚ)) (lineWordCounts lyrics) 0

/-- The same melody with its per-line grouping kept: line `ℓ` of the result
holds exactly the notes the synthesizer emits for input line `ℓ`. -/
def melodySegs (s : List Int) (q : ℚ) : List Nat → ℚ → List (List NoteQ)
  | [], _ => []
  | w :: ws, t =>
    let p := genNotesAux s q (max 4 w) 0 t
    p.1 :: melodySegs s q ws (p.2 + q * (1 / 2))

/-- Per-line segments of the generated melody. -/
def melodySegments (lyrics : String) (bpm : ℕ) (key : String) :
    List (List NoteQ) :=
  melodySegs (get_scale_notes key) (60 / (bpm : ℚ)) (lineWordCounts lyrics) 0

/-- Flat index of the first note of line `ℓ` inside the melody. -/
def segOffset (ws : List Nat) (ℓ : Nat) : Nat :=
  ((ws.take ℓ).map (fun w => max 4 w)).sum

/- ===== Structural lemmas about the melody synthesizer ===== -/

/-- Unfolding equation: the inner loop at remaining count 0. -/
theorem genNotesAux_zero (s : List Int) (q : ℚ) (i : ℕ) (t : ℚ) :
    genNotesAux s q 0 i t = ([], t) := rfl

/-- Unfolding equation: the inner loop emits one note, then recurses with the
advanced index and cursor. -/
theorem genNotesAux_succ (s : List Int) (q : ℚ) (k i : ℕ) (t : ℚ) :
    genNotesAux s q (k + 1) i t =
      (⟨s.getD (i % s.length) 0, noteDuration q i, t⟩ ::
          (genNotesAux s q k (i + 1) (t + noteDuration q i)).1,
        (genNotesAux s q k (i + 1) (t + noteDuration q i)).2) := by
  simp [genNotesAux]

/-- Unfolding equation: the outer loop on a line. -/
theorem genLines_cons (s : List Int) (q : ℚ) (w : ℕ) (ws : List Nat) (t : ℚ) :
    genLines s q (w :: ws) t =
      (genNotesAux s q (max 4 w) 0 t).1 ++
        genLines s q ws ((genNotesAux s q (max 4 w) 0 t).2 + q * (1 / 2)) := by
  simp [genLines]

/-- Unfolding equation: the segment-keeping outer loop on a line. -/
theorem melodySegs_cons (s : List Int) (q : ℚ) (w : ℕ) (ws : List Nat) (t : ℚ) :
    melodySegs s q (w :: ws) t =
      (genNotesAux s q (max 4 w) 0 t).1 ::
        melodySegs s q ws ((genNotesAux s q (max 4 w) 0 t).2 + q * (1 / 2)) := by
  simp [melodySegs]

/-- Every rhythm-pattern duration is strictly positive for a positive
quarter length. -/
theorem noteDuration_pos (q : ℚ) (hq : 0 < q) (i : ℕ) : 0 < noteDuration q i := by
  unfold noteDuration
  split_ifs <;> linarith

/-- The rhythm pattern, written as the spec writes it. -/
theorem noteDuration_forms (q : ℚ) (i : ℕ) :
    noteDuration q i =
      if i % 4 = 0 then 2 * q else if i % 2 = 0 then q else (1 / 2) * q := by
  unfold noteDuration
  split_ifs <;> ring

/-- The inner loop emits exactly its requested note count. -/
theorem genNotesAux_length (s : List Int) (q : ℚ) (k i : ℕ) (t : ℚ) :
    (genNotesAux s q k i t).1.length = k := by
  induction k generalizing i t with
  | zero => rfl
  | succ k ih => simp [genNotesAux_succ, ih]

/-- Element `j` of an inner-loop run has the pitch and duration of loop
index `i + j`. -/
theorem genNotesAux_get (s : List Int) (q : ℚ) (k i : ℕ) (t : ℚ) (j : ℕ)
    (hj : j < k) :
    ∃ st, (genNotesAux s q k i t).1[j]? =
      some ⟨s.getD ((i + j) % s.length) 0, noteDuration q (i + j), st⟩ := by
  induction k generalizing i t j with
  | zero => omega
  | succ k ih =>
    cases j with
    | zero => exact ⟨t, by simp [genNotesAux_succ]⟩
    | succ j =>
      obtain ⟨st, hst⟩ := ih (i + 1) (t + noteDuration q i) j (by omega)
      have he : i + 1 + j = i + (j + 1) := by omega
      rw [he] at hst
      exact ⟨st, by simpa [genNotesAux_succ] using hst⟩

/-- Head of a non-empty inner-loop run: the first note starts at the cursor. -/
theorem genNotesAux_head (s : List Int) (q : ℚ) (k i : ℕ) (t : ℚ) :
    (genNotesAux s q (k + 1) i t).1.head? =
      some ⟨s.getD (i % s.length) 0, noteDuration q i, t⟩ := by
  simp [genNotesAux_succ]

/-- The cursor returned by the inner loop equals the end of its last note. -/
theorem genNotesAux_last_end (s : List Int) (q : ℚ) (k i : ℕ) (t : ℚ) :
    ∀ a, (genNotesAux s q k i t).1.getLast? = some a →
      (genNotesAux s q k i t).2 = a.start_time + a.duration := by
  induction k generalizing i t with
  | zero => intro a ha; simp [genNotesAux_zero] at ha
  | succ k ih =>
    intro a ha
    rw [genNotesAux_succ] at ha ⊢
    cases k with
    | zero =>
      simp [genNotesAux_zero] at ha ⊢
      rw [← ha]
    | succ k' =>
      have hne : (genNotesAux s q (k' + 1) (i + 1) (t + noteDuration q i)).1 ≠ [] := by
        intro hc
        have hl := genNotesAux_length s q (k' + 1) (i + 1) (t + noteDuration q i)
        rw [hc] at hl
        simp at hl
      obtain ⟨b, l, hb⟩ := List.exists_cons_of_ne_nil hne
      simp only [hb] at ha ⊢
      rw [List.getLast?_cons_cons] at ha
      have := ih (i + 1) (t + noteDuration q i) a (by rw [hb]; exact ha)
      simpa [hb] using this

/-- Every note emitted by the inner loop has strictly positive duration
(for a positive quarter length). -/
theorem genNotesAux_dur_pos (s : List Int) (q : ℚ) (hq : 0 < q) (k i : ℕ)
    (t : ℚ) :
    ∀ n ∈ (genNotesAux s q k i t).1, 0 < n.duration := by
  induction k generalizing i t with
  | zero => simp [genNotesAux_zero]
  | succ k ih =>
    intro n hn
    rw [genNotesAux_succ] at hn
    rcases List.mem_cons.mp hn with h | h
    · rw [h]; exact noteDuration_pos q hq i
    · exact ih (i + 1) (t + noteDuration q i) n h

/-- Consecutive notes of one inner-loop run are exactly contiguous, and each
note's duration is positive: the next note starts where the previous ends. -/
theorem genNotesAux_chain (s : List Int) (q : ℚ) (hq : 0 < q) (k i : ℕ)
    (t : ℚ) :
    List.Chain'
      (fun a b => b.start_time = a.start_time + a.duration ∧ 0 < a.duration)
      (genNotesAux s q k i t).1 := by
  induction k generalizing i t with
  | zero => simp [genNotesAux_zero]
  | succ k ih =>
    rw [genNotesAux_succ, List.chain'_cons']
    refine ⟨?_, ih (i + 1) (t + noteDuration q i)⟩
    intro y hy
    cases k with
    | zero => simp [genNotesAux_zero] at hy
    | succ k' =>
      rw [genNotesAux_head] at hy
      have hy' : y = ⟨s.getD ((i + 1) % s.length) 0, noteDuration q (i + 1),
          t + noteDuration q i⟩ := by
        simpa using hy.symm
      rw [hy']
      exact ⟨rfl, noteDuration_pos q hq i⟩

/-- Total length of the melody: one `max 4 w` block per kept line. -/
theorem genLines_length (s : List Int) (q : ℚ) (ws : List Nat) (t : ℚ) :
    (genLines s q ws t).length = (ws.map (fun w => max 4 w)).sum := by
  induction ws generalizing t with
  | nil => rfl
  | cons w ws ih => simp [genLines_cons, genNotesAux_length, ih]

/-- Flat indexing of the melody: the note at offset `segOffset ws ℓ + i`
is note `i` of line `ℓ`, with pitch `s[i % len]` and the rhythm-pattern
duration for index `i`. -/
theorem genLines_get (s : List Int) (q : ℚ) (ws : List Nat) (t : ℚ)
    (ℓ w : ℕ) (hℓ : ws[ℓ]? = some w) (i : ℕ) (hi : i < max 4 w) :
    ∃ st, (genLines s q ws t)[segOffset ws ℓ + i]? =
      some ⟨s.getD (i % s.length) 0, noteDuration q i, st⟩ := by
  induction ws generalizing t ℓ with
  | nil => simp at hℓ
  | cons w0 ws ih =>
    cases ℓ with
    | zero =>
      have hw : w0 = w := by simpa using hℓ
      subst hw
      rw [genLines_cons]
      have hoff : segOffset (w0 :: ws) 0 + i = i := by simp [segOffset]
      rw [hoff, List.getElem?_append_left
        (by rw [genNotesAux_length]; exact hi)]
      obtain ⟨st, hst⟩ := genNotesAux_get s q (max 4 w0) 0 t i hi
      rw [Nat.zero_add] at hst
      exact ⟨st, hst⟩
    | succ ℓ =>
      rw [genLines_cons]
      have hoff : segOffset (w0 :: ws) (ℓ + 1) + i =
          (genNotesAux s q (max 4 w0) 0 t).1.length + (segOffset ws ℓ + i) := by
        simp [segOffset, genNotesAux_length]
        omega
      rw [hoff, List.getElem?_append_right (by omega), Nat.add_sub_cancel_left]
      exact ih _ ℓ (by simpa using hℓ)

/-- The melody equals the concatenation of its per-line segments. -/
theorem genLines_eq_join (s : List Int) (q : ℚ) (ws : List Nat) (t : ℚ) :
    genLines s q ws t = (melodySegs s q ws t).flatten := by
  induction ws generalizing t with
  | nil => rfl
  | cons w ws ih => simp [genLines_cons, melodySegs_cons, ih]

/-- Every note of the melody has strictly positive duration. -/
theorem genLines_dur_pos (s : List Int) (q : ℚ) (hq : 0 < q) (ws : List Nat)
    (t : ℚ) :
    ∀ n ∈ genLines s q ws t, 0 < n.duration := by
  induction ws generalizing t with
  | nil => simp [genLines]
  | cons w ws ih =>
    intro n hn
    rw [genLines_cons] at hn
    rcases List.mem_append.mp hn with h | h
    · exact genNotesAux_dur_pos s q hq _ _ _ n h
    · exact ih _ n h

/-- First note of a melody over at least one line starts at the cursor. -/
theorem genLines_head_start (s : List Int) (q : ℚ) (ws : List Nat) (t : ℚ) :
    ∀ b ∈ (genLines s q ws t).head?, b.start_time = t := by
  cases ws with
  | nil => simp [genLines]
  | cons w ws =>
    intro b hb
    obtain ⟨k, hk⟩ : ∃ k, max 4 w = k + 1 := ⟨max 4 w - 1, by omega⟩
    rw [genLines_cons, hk, genNotesAux_succ] at hb
    have : b = ⟨s.getD (0 % s.length) 0, noteDuration q 0, t⟩ := by
      simpa using hb.symm
    rw [this]

/-- The whole melody satisfies the chained inequalities of the invariant:
each note ends no later than the next starts, and starts are
non-decreasing. -/
theorem genLines_chain_le (s : List Int) (q : ℚ) (hq : 0 < q)
    (ws : List Nat) (t : ℚ) :
    List.Chain'
      (fun a b =>
        a.start_time + a.duration ≤ b.start_time ∧
          a.start_time ≤ b.start_time)
      (genLines s q ws t) := by
  induction ws generalizing t with
  | nil => simp [genLines]
  | cons w ws ih =>
    rw [genLines_cons]
    apply List.Chain'.append
    · exact (genNotesAux_chain s q hq (max 4 w) 0 t).imp
        (fun a b hab => ⟨le_of_eq hab.1.symm, by rw [hab.1]; linarith [hab.2]⟩)
    · exact ih _
    · intro x hx y hy
      have hend := genNotesAux_last_end s q (max 4 w) 0 t x hx
      have hxs := genNotesAux_dur_pos s q hq (max 4 w) 0 t x
        (List.mem_of_mem_getLast? hx)
      have hys := genLines_head_start s q ws _ y hy
      constructor
      · rw [hys, hend]; linarith
      · rw [hys, hend]; linarith

/-- Each per-line segment is exactly contiguous: within a line, every note
starts precisely where the previous one ends. -/
theorem melodySegs_chain_eq (s : List Int) (q : ℚ) (hq : 0 < q)
    (ws : List Nat) (t : ℚ) :
    ∀ seg ∈ melodySegs s q ws t,
      List.Chain' (fun a b => b.start_time = a.start_time + a.duration) seg := by
  induction ws generalizing t with
  | nil => simp [melodySegs]
  | cons w ws ih =>
    intro seg hseg
    rw [melodySegs_cons] at hseg
    rcases List.mem_cons.mp hseg with h | h
    · rw [h]
      exact (genNotesAux_chain s q hq (max 4 w) 0 t).imp (fun a b hab => hab.1)
    · exact ih _ seg h

/-- Between consecutive per-line segments the gap is exactly the inter-line
rest `q * (1/2)`: the next line's first note starts half a quarter after the
previous line's last note ends. -/
theorem melodySegs_chain_gap (s : List Int) (q : ℚ) (ws : List Nat) (t : ℚ) :
    List.Chain'
      (fun s₁ s₂ => ∀ a b, s₁.getLast? = some a → s₂.head? = some b →
        b.start_time = a.start_time + a.duration + q * (1 / 2))
      (melodySegs s q ws t) := by
  induction ws generalizing t with
  | nil => simp [melodySegs]
  | cons w ws ih =>
    rw [melodySegs_cons, List.chain'_cons']
    refine ⟨?_, ih _⟩
    intro seg2 hseg2 a b ha hb
    cases ws with
    | nil => simp [melodySegs] at hseg2
    | cons w' ws' =>
      rw [melodySegs_cons] at hseg2
      have hseg2' : seg2 = (genNotesAux s q (max 4 w') 0
          ((genNotesAux s q (max 4 w) 0 t).2 + q * (1 / 2))).1 := by
        simpa using hseg2.symm
      obtain ⟨k', hk'⟩ : ∃ k', max 4 w' = k' + 1 := ⟨max 4 w' - 1, by omega⟩
      rw [hseg2', hk', genNotesAux_head] at hb
      have hb' : b = ⟨s.getD (0 % s.length) 0, noteDuration q 0,
          (genNotesAux s q (max 4 w) 0 t).2 + q * (1 / 2)⟩ := by
        simpa using hb.symm
      have hend := genNotesAux_last_end s q (max 4 w) 0 t a ha
      rw [hb', ← hend]

/-- The resolver always returns a 7-pitch scale. -/
theorem get_scale_notes_length (key : String) : (get_scale_notes key).length = 7 := by
  by_cases h : key_is_minor key <;>
    simp [get_scale_notes, h, minor_pattern, major_pattern]

/-- C4: for lyrics with non-empty-after-trim lines of word counts
`w_1..w_N` and positive bpm, the melody has exactly `sum of max(4, w_i)`
notes; within each line, note `i` has pitch `scale[i mod 7]` and duration
`2*quarter` when `i mod 4 = 0`, else `quarter` when `i mod 2 = 0`, else
`quarter/2`, where `quarter = 60/bpm`. -/
theorem melody_note_count_and_pattern (lyrics : String) (bpm : ℕ)
    (key : String) (hb : 0 < bpm) :
    (generate_melody_from_lyrics lyrics bpm key).length =
        ((lineWordCounts lyrics).map (fun w => max 4 w)).sum ∧
      ∀ ℓ w, (lineWordCounts lyrics)[ℓ]? = some w →
        ∀ i, i < max 4 w →
          ∃ st, (generate_melody_from_lyrics lyrics bpm key)[segOffset (lineWordCounts lyrics) ℓ + i]? =
            some ⟨(get_scale_notes key).getD (i % 7) 0,
              (if i % 4 = 0 then 2 * (60 / (bpm : ℚ))
               else if i % 2 = 0 then 60 / (bpm : ℚ)
               else (1 / 2) * (60 / (bpm : ℚ))), st⟩ := by
  constructor
  · exact genLines_length (get_scale_notes key) (60 / (bpm : ℚ))
      (lineWordCounts lyrics) 0
  · intro ℓ w hℓ i hi
    obtain ⟨st, hst⟩ := genLines_get (get_scale_notes key) (60 / (bpm : ℚ))
      (lineWordCounts lyrics) 0 ℓ w hℓ i hi
    rw [get_scale_notes_length, noteDuration_forms] at hst
    exact ⟨st, hst⟩

/-- C4 witness: the count part of the theorem at the spec's own scenario
(`"Yo yo yo\nListen up now"`, bpm 120, key C). -/
theorem melody_note_count_and_pattern_witness :
    0 < 120 ∧
      (generate_melody_from_lyrics "Yo yo yo\nListen up now" 120 "C").length =
        ((lineWordCounts "Yo yo yo\nListen up now").map (fun w => max 4 w)).sum :=
  ⟨by decide,
    (melody_note_count_and_pattern "Yo yo yo\nListen up now" 120 "C" (by decide)).1⟩

/-- C8: for every lyrics text, positive bpm and key string, the generated
melody has strictly positive durations, non-decreasing start times, and the
next note never starts before the previous one ends. -/
theorem melody_monotone_invariants (lyrics : String) (bpm : ℕ) (key : String)
    (hb : 0 < bpm) :
    (∀ n ∈ generate_melody_from_lyrics lyrics bpm key, 0 < n.duration) ∧
      List.Chain' (fun a b => a.start_time ≤ b.start_time)
        (generate_melody_from_lyrics lyrics bpm key) ∧
      List.Chain' (fun a b => a.start_time + a.duration ≤ b.start_time)
        (generate_melody_from_lyrics lyrics bpm key) := by
  have hb' : (0 : ℚ) < (bpm : ℚ) := by exact_mod_cast hb
  have hq : 0 < 60 / (bpm : ℚ) := by positivity
  refine ⟨?_, ?_, ?_⟩
  · exact fun n hn =>
      genLines_dur_pos (get_scale_notes key) _ hq (lineWordCounts lyrics) 0 n hn
  · exact (genLines_chain_le (get_scale_notes key) _ hq
      (lineWordCounts lyrics) 0).imp (fun a b h => h.2)
  · exact (genLines_chain_le (get_scale_notes key) _ hq
      (lineWordCounts lyrics) 0).imp (fun a b h => h.1)

/-- C8 witness: the non-overlap chain at the spec's own scenario. -/
theorem melody_monotone_invariants_witness :
    0 < 120 ∧
      List.Chain' (fun a b => a.start_time + a.duration ≤ b.start_time)
        (generate_melody_from_lyrics "Yo yo yo\nListen up now" 120 "C") :=
  ⟨by decide,
    (melody_monotone_invariants "Yo yo yo\nListen up now" 120 "C" (by decide)).2.2⟩

/-- C10: the melody is the concatenation of its per-line segments; inside a
segment, consecutive notes are exactly contiguous; between the last note of
one line and the first note of the next, the gap is exactly
`0.5 * (60/bpm)` seconds. -/
theorem melody_line_contiguity (lyrics : String) (bpm : ℕ) (key : String)
    (hb : 0 < bpm) :
    generate_melody_from_lyrics lyrics bpm key =
        (melodySegments lyrics bpm key).flatten ∧
      (∀ seg ∈ melodySegments lyrics bpm key,
        List.Chain' (fun a b => b.start_time = a.start_time + a.duration) seg) ∧
      List.Chain'
        (fun s₁ s₂ => ∀ a b, s₁.getLast? = some a → s₂.head? = some b →
          b.start_time = a.start_time + a.duration + (1 / 2) * (60 / (bpm : ℚ)))
        (melodySegments lyrics bpm key) := by
  have hb' : (0 : ℚ) < (bpm : ℚ) := by exact_mod_cast hb
  have hq : 0 < 60 / (bpm : ℚ) := by positivity
  refine ⟨genLines_eq_join (get_scale_notes key) _ (lineWordCounts lyrics) 0,
    ?_, ?_⟩
  · exact melodySegs_chain_eq (get_scale_notes key) _ hq (lineWordCounts lyrics) 0
  · exact (melodySegs_chain_gap (get_scale_notes key) (60 / (bpm : ℚ))
      (lineWordCounts lyrics) 0).imp
      (fun s₁ s₂ h a b ha hb2 => by rw [h a b ha hb2]; ring)

/-- C10 witness: the segment decomposition at the spec's own scenario. -/
theorem melody_line_contiguity_witness :
    0 < 120 ∧
      generate_melody_from_lyrics "Yo yo yo\nListen up now" 120 "C" =
        (melodySegments "Yo yo yo\nListen up now" 120 "C").flatten :=
  ⟨by decide,
    (melody_line_contiguity "Yo yo yo\nListen up now" 120 "C" (by decide)).1⟩

/- ===== ScoreRenderer: `create_midi_file` and its backends (lines 154-275) ===== -/

/-- Environment observed by `create_midi_file`'s backend chain: which
optional libraries import successfully (`MUSIC21_AVAILABLE`,
`MIDIUTIL_AVAILABLE`, `import mido`), whether each library-specific attempt
runs without raising, and whether the final `mid.save` write succeeds. -/
structure RenderEnv where
  music21Available : Bool
  music21Ok : Bool
  midiutilAvailable : Bool
  midiutilOk : Bool
  midoAvailable : Bool
  saveOk : Bool
deriving DecidableEq

/-- Embedding of `create_simple_midi`'s control flow: `import mido` inside
the function raises `ImportError` when mido is absent, turned into
`RuntimeError('MIDI creation requires music21, midiutil, or mido')`; any
other exception (modelled by the `mid.save` write failing) becomes
`RuntimeError('MIDI creation failed: ...')`; otherwise the file is written. -/
def create_simple_midi (e : RenderEnv) : Except String Unit :=
  if e.midoAvailable then
    if e.saveOk then Except.ok ()
    else Except.error "MIDI creation failed"
  else Except.error "MIDI creation requires music21, midiutil, or mido"

/-- Embedding of `create_midi_file`'s backend selection: music21 when
importable (falling back to `create_simple_midi` if its attempt raises),
else midiutil (same fallback), else `create_simple_midi` directly. -/
def create_midi_file (e : RenderEnv) : Except String Unit :=
  if e.music21Available then
    if e.music21Ok then Except.ok () else create_simple_midi e
  else if e.midiutilAvailable then
    if e.midiutilOk then Except.ok () else create_simple_midi e
  else create_simple_midi e

/-- C3 counterexample: with no optional library installed (music21,
midiutil and mido all absent) the final fallback raises even though the
filesystem write would succeed (`saveOk = true`), so a fatal render failure
is reachable — the in-house writer does depend on the optional mido
component. -/
theorem simple_midi_needs_mido_counterexample :
    create_midi_file ⟨false, false, false, false, false, true⟩ =
      Except.error "MIDI creation requires music21, midiutil, or mido" := rfl

/-- C3 (amended): the final fallback depends on the optional mido library;
whenever mido imports and the filesystem write succeeds, the render stage
succeeds regardless of the other backends, so a fatal render failure is
unreachable only under that extra availability assumption. -/
theorem render_succeeds_with_mido (e : RenderEnv)
    (h1 : e.midoAvailable = true) (h2 : e.saveOk = true) :
    create_midi_file e = Except.ok () := by
  rcases e with ⟨m21, m21ok, mu, muok, mido, save⟩
  simp only at h1 h2
  subst h1 h2
  cases m21 <;> cases m21ok <;> cases mu <;> cases muok <;>
    simp [create_midi_file, create_simple_midi]

/-- C3 witness: the amended theorem at the all-libraries-absent-but-mido
environment. -/
theorem render_succeeds_with_mido_witness :
    (RenderEnv.midoAvailable ⟨false, false, false, false, true, true⟩ = true ∧
        RenderEnv.saveOk ⟨false, false, false, false, true, true⟩ = true) ∧
      create_midi_file ⟨false, false, false, false, true, true⟩ = Except.ok () :=
  ⟨⟨rfl, rfl⟩, render_succeeds_with_mido ⟨false, false, false, false, true, true⟩ rfl rfl⟩

/- ===== In-house writer event emission: `create_simple_midi` loop (lines 249-266) ===== -/

/-- Python `int()` applied to an exact real value: truncation toward zero
(floor for non-negative values, ceiling for negative ones). -/
def pyInt (q : ℚ) : Int :=
  if 0 ≤ q then ⌊q⌋ else ⌈q⌉

/-- Modelled from the spec: `round(...)` as Python's built-in round
(round-half-to-even), used only to state the claim's tick conversion. -/
def pyRound (q : ℚ) : Int :=
  if q - (⌊q⌋ : ℚ) < 1 / 2 then ⌊q⌋
  else if (1 : ℚ) / 2 < q - (⌊q⌋ : ℚ) then ⌊q⌋ + 1
  else if ⌊q⌋ % 2 = 0 then ⌊q⌋ else ⌊q⌋ + 1

/-- `mido.MidiFile().ticks_per_beat`, the mido default. -/
def ticks_per_beat : ℕ := 480

/-- One track event of the in-house writer: `note_on`/`note_off` with the
wait-time (delta ticks) the source passes as `time=` (velocity is the
constant 64 in both messages and is omitted). -/
inductive MidiEvent where
  | noteOn (pitch : Int) (wait : Int)
  | noteOff (pitch : Int) (wait : Int)
deriving DecidableEq

/-- Embedding of the note loop of `create_simple_midi`: per note, convert
`start_time` and `duration` to ticks with Python `int(...)`, emit a
`note_on` with wait `start_tick - current_tick` when positive (else 0),
a `note_off` after `duration_ticks`, and advance
`current_tick = start_tick + duration_ticks`. -/
def simpleMidiEvents (bpm : ℕ) : List NoteQ → Int → List MidiEvent
  | [], _ => []
  | n :: rest, current_tick =>
    let start_tick := pyInt (n.start_time * (bpm : ℚ) / 60 * (ticks_per_beat : ℚ))
    let duration_ticks := pyInt (n.duration * (bpm : ℚ) / 60 * (ticks_per_beat : ℚ))
    let wait_ticks := start_tick - current_tick
    MidiEvent.noteOn n.pitch (if 0 < wait_ticks then wait_ticks else 0) ::
      MidiEvent.noteOff n.pitch duration_ticks ::
        simpleMidiEvents bpm rest (start_tick + duration_ticks)

/-- Modelled from the spec: the same event loop written exactly as the spec
words it, parameterized by the seconds-to-ticks conversion `rnd` — tick
counts `rnd(seconds * bpm/60 * ticks_per_beat)`, a wait-time of
`max 0 (start_tick - current_tick)` before each note-on, a note-off after
`duration_ticks`, cursor advanced to `start_tick + duration_ticks`. -/
def specWriterEvents (bpm : ℕ) (rnd : ℚ → Int) : List NoteQ → Int → List MidiEvent
  | [], _ => []
  | n :: rest, current_tick =>
    let start_tick := rnd (n.start_time * (bpm : ℚ) / 60 * (ticks_per_beat : ℚ))
    let duration_ticks := rnd (n.duration * (bpm : ℚ) / 60 * (ticks_per_beat : ℚ))
    MidiEvent.noteOn n.pitch (max 0 (start_tick - current_tick)) ::
      MidiEvent.noteOff n.pitch duration_ticks ::
        specWriterEvents bpm rnd rest (start_tick + duration_ticks)

/-- The source's event loop is the spec's event loop instantiated with
truncation toward zero as the seconds-to-ticks conversion. -/
theorem writerEvents_eq (bpm : ℕ) (mel : List NoteQ) (c : Int) :
    simpleMidiEvents bpm mel c = specWriterEvents bpm pyInt mel c := by
  induction mel generalizing c with
  | nil => rfl
  | cons n rest ih =>
    simp only [simpleMidiEvents, specWriterEvents, ih]
    have hmax : ∀ w : Int, (if 0 < w then w else 0) = max 0 w := by
      intro w; split <;> omega
    rw [hmax]

/-- The duration-to-ticks argument of the counterexample note evaluates to
`24/25` of a tick. -/
theorem cex_duration_arg :
    (1 : ℚ) / 1000 * ((120 : ℕ) : ℚ) / 60 * ((ticks_per_beat : ℕ) : ℚ) = 24 / 25 := by
  norm_num [ticks_per_beat]

/-- Truncation sends `24/25` ticks to 0. -/
theorem cex_pyInt : pyInt (24 / 25) = 0 := by
  have hf : ⌊(24 : ℚ) / 25⌋ = 0 := by
    rw [Int.floor_eq_zero_iff]
    constructor <;> norm_num
  rw [pyInt, if_pos (by norm_num), hf]

/-- Rounding sends `24/25` ticks to 1. -/
theorem cex_pyRound : pyRound (24 / 25) = 1 := by
  have hf : ⌊(24 : ℚ) / 25⌋ = 0 := by
    rw [Int.floor_eq_zero_iff]
    constructor <;> norm_num
  rw [pyRound, hf]
  norm_num

/-- C7 counterexample: for a note of duration 0.001s at bpm 120 the source
truncates `0.96` ticks to 0 while the claimed `round` gives 1, so the
emitted events differ from the claim's description. -/
theorem simple_midi_round_counterexample :
    simpleMidiEvents 120 [⟨60, 1 / 1000, 0⟩] 0 ≠
      specWriterEvents 120 pyRound [⟨60, 1 / 1000, 0⟩] 0 := by
  intro hcontra
  rw [writerEvents_eq] at hcontra
  simp only [specWriterEvents, List.cons.injEq, MidiEvent.noteOn.injEq,
    MidiEvent.noteOff.injEq] at hcontra
  obtain ⟨-, ⟨-, hdt⟩, -⟩ := hcontra
  rw [cex_duration_arg, cex_pyInt, cex_pyRound] at hdt
  exact absurd hdt (by decide)

/-- C7 (amended): the in-house writer follows the claimed event discipline
exactly, except that seconds are converted to ticks by truncation toward
zero (Python `int`), not by rounding. -/
theorem simple_midi_events_spec (bpm : ℕ) (hb : 0 < bpm) (mel : List NoteQ)
    (c : Int) :
    simpleMidiEvents bpm mel c = specWriterEvents bpm pyInt mel c :=
  writerEvents_eq bpm mel c

/-- C7 witness: the amended theorem at a concrete one-note melody. -/
theorem simple_midi_events_spec_witness :
    0 < 120 ∧
      simpleMidiEvents 120 [⟨60, 1 / 1000, 0⟩] 0 =
        specWriterEvents 120 pyInt [⟨60, 1 / 1000, 0⟩] 0 :=
  ⟨by decide, simple_midi_events_spec 120 (by decide) [⟨60, 1 / 1000, 0⟩] 0⟩

/- ===== AudioTranscoder: `convert_midi_to_mp3` and its backends (lines 278-400) ===== -/

/-- Environment observed by one transcode backend attempt: `rc` is the
external process's return code (`none` when `subprocess.run` raises —
tool missing or timeout), `outExists`/`outSize` describe the backend's
output file afterwards, and `encodeRc` is the return code of the
`convert_wav_to_mp3` ffmpeg encode step (`none` when that run raises). -/
structure BackendEnv where
  rc : Option Int
  outExists : Bool
  outSize : Nat
  encodeRc : Option Int
deriving DecidableEq

/-- Embedding of `convert_with_fluidsynth`: skipped entirely when no
soundfont path exists; otherwise success requires return code 0, an
existing, non-empty waveform file, and a successful encode step (an
encode failure raises and is swallowed by the `except`, yielding False). -/
def convert_with_fluidsynth (sfFound : Bool) (e : BackendEnv) : Bool :=
  if sfFound then
    match e.rc with
    | some rcv =>
      if rcv = 0 ∧ e.outExists = true ∧ 0 < e.outSize then
        match e.encodeRc with
        | some erc => if erc = 0 then true else false
        | none => false
      else false
    | none => false
  else false

/-- Embedding of `convert_with_timidity`: success requires return code 0,
an existing waveform file (no size check in the source), and a successful
encode step. -/
def convert_with_timidity (e : BackendEnv) : Bool :=
  match e.rc with
  | some rcv =>
    if rcv = 0 ∧ e.outExists = true then
      match e.encodeRc with
      | some erc => if erc = 0 then true else false
      | none => false
    else false
  | none => false

/-- Embedding of `convert_with_ffmpeg_direct`: success requires return
code 0 and an existing output file (no size check, no encode step). -/
def convert_with_ffmpeg_direct (e : BackendEnv) : Bool :=
  match e.rc with
  | some rcv => if rcv = 0 ∧ e.outExists = true then true else false
  | none => false

/-- C6 counterexample: the timidity backend reports success for a process
that exited 0 and produced an existing but zero-byte waveform file — the
non-empty-output criterion of the soundfont backend is not applied. -/
theorem timidity_empty_output_counterexample :
    convert_with_timidity ⟨some 0, true, 0, some 0⟩ = true ∧
      ¬ 0 < BackendEnv.outSize ⟨some 0, true, 0, some 0⟩ := by
  constructor
  · rfl
  · decide

/-- C6 (amended): the soundfont backend succeeds exactly on zero exit code,
an existing non-empty waveform, and a zero-exit encode step; the timidity
backend applies the same criterion except the non-emptiness check; the
direct converter requires only zero exit code and an existing output. -/
theorem backend_success_criteria (e : BackendEnv) :
    (convert_with_fluidsynth true e = true ↔
        e.rc = some 0 ∧ e.outExists = true ∧ 0 < e.outSize ∧
          e.encodeRc = some 0) ∧
      (convert_with_timidity e = true ↔
        e.rc = some 0 ∧ e.outExists = true ∧ e.encodeRc = some 0) ∧
      (convert_with_ffmpeg_direct e = true ↔
        e.rc = some 0 ∧ e.outExists = true) := by
  obtain ⟨rc, ex, sz, erc⟩ := e
  refine ⟨?_, ?_, ?_⟩ <;>
    cases rc <;> cases erc <;>
      simp [convert_with_fluidsynth, convert_with_timidity,
        convert_with_ffmpeg_direct] <;>
      tauto

/-- The fatal message raised by `convert_midi_to_mp3` when every backend
fails; it names fluidsynth and timidity. -/
def transcodeFailMsg : String :=
  "MIDI to MP3 conversion failed. Please ensure fluidsynth or timidity is installed."

/-- Environment of one whole `convert_midi_to_mp3` run: whether a soundfont
path exists, the per-backend observations, whether a failing
destination-targeting external process (the direct ffmpeg call, or a failed
encode attempt) left a file at the destination, and whether the destination
existed beforehand. -/
structure TranscodeEnv where
  sfFound : Bool
  flEnv : BackendEnv
  tmEnv : BackendEnv
  ffEnv : BackendEnv
  failLeftDest : Bool
  destBefore : Bool
deriving DecidableEq

/-- Embedding of `convert_midi_to_mp3`: try fluidsynth, then timidity, then
direct ffmpeg; on success the destination file exists (written by the
encode step or the direct converter); when all three fail, raise the fatal
message. The transcoder itself never writes or deletes the destination, so
after total failure the destination exists exactly when it existed before
or a failing external process that ran (`ffEnv.rc` is `some`) created it. -/
def convert_midi_to_mp3 (e : TranscodeEnv) : Except String Unit × Bool :=
  if convert_with_fluidsynth e.sfFound e.flEnv then (Except.ok (), true)
  else if convert_with_timidity e.tmEnv then (Except.ok (), true)
  else if convert_with_ffmpeg_direct e.ffEnv then (Except.ok (), true)
  else (Except.error transcodeFailMsg,
    e.destBefore || (e.ffEnv.rc.isSome && e.failLeftDest))

/-- C9 counterexample: every backend fails (no soundfont, timidity raises,
direct ffmpeg runs and exits 1) but the failing ffmpeg run left a zero-byte
file at the destination; the transcoder raises the fatal error yet the
destination path exists afterwards, since no code path deletes it. -/
theorem transcode_failure_dest_counterexample :
    convert_midi_to_mp3
        ⟨false, ⟨none, false, 0, none⟩, ⟨none, false, 0, none⟩,
          ⟨some 1, true, 0, none⟩, true, false⟩ =
      (Except.error transcodeFailMsg, true) := rfl

/-- C9 (amended): whenever all three backends fail, the destination did not
exist beforehand, and no failing external process created a file there, the
transcoder raises the fatal message naming fluidsynth and timidity and the
destination path does not exist afterwards. -/
theorem transcode_failure_behaviour (e : TranscodeEnv)
    (h1 : convert_with_fluidsynth e.sfFound e.flEnv = false)
    (h2 : convert_with_timidity e.tmEnv = false)
    (h3 : convert_with_ffmpeg_direct e.ffEnv = false)
    (h4 : e.destBefore = false) (h5 : e.failLeftDest = false) :
    convert_midi_to_mp3 e = (Except.error transcodeFailMsg, false) := by
  rw [convert_midi_to_mp3, h1, h2, h3, h4, h5]
  simp

/-- C9 witness: the amended theorem at the all-tools-absent environment. -/
theorem transcode_failure_behaviour_witness :
    convert_midi_to_mp3
        ⟨false, ⟨none, false, 0, none⟩, ⟨none, false, 0, none⟩,
          ⟨none, false, 0, none⟩, false, false⟩ =
      (Except.error transcodeFailMsg, false) :=
  transcode_failure_behaviour
    ⟨false, ⟨none, false, 0, none⟩, ⟨none, false, 0, none⟩,
      ⟨none, false, 0, none⟩, false, false⟩ rfl rfl rfl rfl rfl

/- ===== CompositionOrchestrator: `compose_music_from_lyrics` (lines 36-71) ===== -/

/-- Environment of one orchestrator run: whether `create_midi_file`
succeeds, whether the transient MIDI file is present when the render stage
raises midway, and whether `convert_midi_to_mp3` succeeds. -/
structure ComposeEnv where
  renderOk : Bool
  renderLeft : Bool
  transcodeOk : Bool
deriving DecidableEq

/-- Embedding of `compose_music_from_lyrics`'s control flow and the
lifecycle of the transient `.mid` file (second component: does the MIDI
file exist after the call returns or raises?). The source deletes the MIDI
file only after `convert_midi_to_mp3` returns; when any stage raises, the
exception propagates before the `unlink` line runs. -/
def compose_music_from_lyrics (env : ComposeEnv) : Except String Unit × Bool :=
  if env.renderOk then
    if env.transcodeOk then (Except.ok (), false)
    else (Except.error transcodeFailMsg, true)
  else (Except.error "MIDI creation failed", env.renderLeft)

/-- C2: evaluation at the failing input — the render stage succeeds (the
MIDI file is written) and the transcode stage raises; the orchestrator
propagates the error while the transient MIDI file still exists, because
the `unlink` is only reached on the success path. -/
theorem compose_leaks_midi_on_transcode_failure :
    compose_music_from_lyrics ⟨true, false, false⟩ =
      (Except.error transcodeFailMsg, true) := rfl
